import Mathlib

/-!
Verification development for the RichTech payment backend (src/index.js).

The repository source concatenates two variants of the same Express
application; the second variant (the `server.js` listing, which defines
`normalizePhone`, `getAccessToken` with the token cache, and the
`/stkpush` and `/callbackurl` handlers with receiver support) is the one
whose line numbers the specification refers to, and is embedded here.
The `sanitizeXml` helper is defined in the first variant and embedded as
well, together with the first variant's callback transaction
construction (`mkTransactionV1`) which applies it to three fields.

JavaScript strings are modelled as Lean `String` / `List Char`; the
dynamically-typed request fields that the handlers inspect are modelled
by the `JsVal` type with JavaScript truthiness.  Asynchronous outbound
calls (`axios`) are modelled by passing their awaited outcome as an
`Except` parameter; the Mongo collection is modelled as a `List` of
records, with `save` appending a new record.
-/

namespace RichTech

/-- Model of the JavaScript runtime values that flow through the handlers:
numbers (finite value, NaN, the two infinities), strings, `null` and
`undefined` (used for an absent field). -/
inductive JsNum where
  | finite (q : ℚ)
  | nan
  | posInf
  | negInf
deriving DecidableEq

/-- A loosely-typed JavaScript value as it appears in a parsed request body. -/
inductive JsVal where
  | num (n : JsNum)
  | str (s : String)
  | nullV
  | undef
deriving DecidableEq

/-- JavaScript truthiness of a `JsVal`: `undefined`, `null`, `0`, `NaN` and
the empty string are falsy, everything else is truthy. -/
def jsTruthy : JsVal → Bool
  | JsVal.num (JsNum.finite q) => decide (q ≠ 0)
  | JsVal.num JsNum.nan => false
  | JsVal.num JsNum.posInf => true
  | JsVal.num JsNum.negInf => true
  | JsVal.str s => decide (s ≠ "")
  | JsVal.nullV => false
  | JsVal.undef => false

/-- JavaScript truthiness of a field modelled as `Option String`
(`none` = absent/undefined): absent and the empty string are falsy. -/
def jsTruthyStr : Option String → Bool
  | none => false
  | some s => decide (s ≠ "")

/-- JavaScript `x || d` for an already-extracted optional value whose
`none` case stands for a falsy result. -/
def jsOr (o : Option JsVal) (d : JsVal) : JsVal :=
  match o with
  | some v => v
  | none => d

/-- Whitespace recognizer used by the model of JavaScript `String.trim`
(space, tab, line feed, carriage return, vertical tab, form feed). -/
def isWs (c : Char) : Bool :=
  c = ' ' || c = '\t' || c = '\n' || c = '\r' || c = Char.ofNat 11 || c = Char.ofNat 12

/-- ASCII digit recognizer, as matched by the regular-expression class `\d`. -/
def isDigit (c : Char) : Bool :=
  decide ('0' ≤ c) && decide (c ≤ '9')

/-- Model of JavaScript `String.prototype.trim`: drop leading and trailing
whitespace. -/
def jsTrim (l : List Char) : List Char :=
  ((l.dropWhile isWs).reverse.dropWhile isWs).reverse

/-- String-level wrapper of `jsTrim`. -/
def jsTrimStr (s : String) : String :=
  String.mk (jsTrim s.data)

/-- Model of JavaScript `String.prototype.replace` with a string pattern:
replace only the first occurrence of `pat` by `repl`. -/
def jsReplaceFirst (pat repl : List Char) : List Char → List Char
  | [] => []
  | c :: cs =>
    if pat.isPrefixOf (c :: cs) then repl ++ (c :: cs).drop pat.length
    else c :: jsReplaceFirst pat repl cs

/-- The branch structure of `normalizePhone` (src/index.js lines 272-281)
applied to the trimmed input string:
`if (s.startsWith("07")) return "254" + s.substring(1);`
`if (s.startsWith("+254")) return s.replace("+", "");`
`if (s.startsWith("254")) return s;`
`if (/^\d{9}$/.test(s)) return "254" + s;`
`return s;` -/
def normBranches (s : List Char) : List Char :=
  if (['0', '7']).isPrefixOf s then ['2', '5', '4'] ++ s.drop 1
  else if (['+', '2', '5', '4']).isPrefixOf s then jsReplaceFirst ['+'] [] s
  else if (['2', '5', '4']).isPrefixOf s then s
  else if s.length = 9 && s.all isDigit then ['2', '5', '4'] ++ s
  else s

/-- Guard telling whether one of the four transforming/pass-through branch
conditions of `normBranches` fires on a (trimmed) string. -/
def recognizedL (s : List Char) : Bool :=
  (['0', '7']).isPrefixOf s || (['+', '2', '5', '4']).isPrefixOf s ||
    (['2', '5', '4']).isPrefixOf s || (s.length = 9 && s.all isDigit)

/-- `normalizePhone` from src/index.js lines 272-281, on character lists.
`if (!input) return ""; let s = input.toString().trim();` followed by the
branches of `normBranches`.  `none` models a nullish input. -/
def normalizePhoneL (input : Option (List Char)) : List Char :=
  match input with
  | none => []
  | some l => if l = [] then [] else normBranches (jsTrim l)

/-- String-level `normalizePhone` (src/index.js lines 272-281). -/
def normalizePhone (input : Option String) : String :=
  String.mk (normalizePhoneL (input.map String.data))

/-- The validation regular expression `/^2547\d{8}$/` used on the paying
number in the `/stkpush` handler (src/index.js line 338), on lists:
the string is `2547` followed by exactly eight ASCII digits. -/
def isCanonicalL (l : List Char) : Bool :=
  (['2', '5', '4', '7']).isPrefixOf l && l.length = 12 && (l.drop 4).all isDigit

/-- String-level wrapper of `isCanonicalL`. -/
def isCanonical (s : String) : Bool :=
  isCanonicalL s.data

/-- Replacement for one character performed by `sanitizeXml`
(src/index.js lines 52-64): each of the five reserved XML characters is
mapped to its entity, every other character is kept. -/
def xmlEscapeChar (c : Char) : List Char :=
  if c = '&' then ['&', 'a', 'm', 'p', ';']
  else if c = '<' then ['&', 'l', 't', ';']
  else if c = '>' then ['&', 'g', 't', ';']
  else if c = Char.ofNat 39 then ['&', 'a', 'p', 'o', 's', ';']
  else if c = '"' then ['&', 'q', 'u', 'o', 't', ';']
  else [c]

/-- `sanitizeXml` from src/index.js lines 52-64: replace every occurrence
of the five reserved XML characters by the matching entity. -/
def sanitizeXml (s : String) : String :=
  String.mk (List.flatten (s.data.map xmlEscapeChar))

/-- The base64 alphabet used by `Buffer.prototype.toString("base64")`. -/
def base64Alphabet : List Char :=
  String.data ("ABCDEFGHIJKLMNOPQRSTUVWXYZabcdefghijklmnopqrstuvwxyz0123456789+/")

/-- Character of the base64 alphabet at a 6-bit index. -/
def b64Char (n : Nat) : Char :=
  base64Alphabet.getD n 'A'

/-- Base64-encode a byte list, padding with `=` as `Buffer` does. -/
def base64EncodeBytes : List Nat → List Char
  | [] => []
  | [b1] => [b64Char (b1 / 4), b64Char (b1 % 4 * 16), '=', '=']
  | [b1, b2] => [b64Char (b1 / 4), b64Char (b1 % 4 * 16 + b2 / 16), b64Char (b2 % 16 * 4), '=']
  | b1 :: b2 :: b3 :: rest =>
    b64Char (b1 / 4) :: b64Char (b1 % 4 * 16 + b2 / 16) ::
      b64Char (b2 % 16 * 4 + b3 / 64) :: b64Char (b3 % 64) :: base64EncodeBytes rest

/-- Model of `Buffer.from(s).toString("base64")` for ASCII content. -/
def jsBase64 (s : String) : String :=
  String.mk (base64EncodeBytes (s.data.map Char.toNat))

/-- `makePassword` from src/index.js lines 268-270:
base64 of `shortcode ‖ passkey ‖ timestamp`. -/
def makePassword (shortcode passkey timestamp : String) : String :=
  jsBase64 (shortcode ++ passkey ++ timestamp)

/-- The environment variables the handlers read (src/index.js lines 239-247). -/
structure Env where
  CONSUMER_KEY : String
  CONSUMER_SECRET : String
  SHORTCODE : String
  PASSKEY : String
  CALLBACK_URL : String
deriving DecidableEq

/-- The process-wide token cache `{ token, expiresAt }`
(src/index.js line 284), initialized as `{ token: null, expiresAt: 0 }`. -/
structure TokenCache where
  token : Option String
  expiresAt : Int
deriving DecidableEq

/-- The body returned by the OAuth credential exchange:
`{ access_token, expires_in }`, `expires_in` possibly absent. -/
structure TokenData where
  access_token : String
  expires_in : Option Int
deriving DecidableEq

/-- `getAccessToken` from src/index.js lines 285-302.  `now` is
`Date.now()` at entry; `exchange` is the awaited outcome of the axios
credential-exchange call (`Except.error` models a throw).  Returns the
result of the function together with the token cache after the call.
`if (tokenCache.token && tokenCache.expiresAt > now + 5000) return
tokenCache.token;` else perform the exchange and on success store
`token` and `expiresAt = now + (data.expires_in || 3600) * 1000`. -/
def getAccessToken (cache : TokenCache) (now : Int) (exchange : Except String TokenData) :
    Except String String × TokenCache :=
  if jsTruthyStr cache.token && decide (cache.expiresAt > now + 5000) then
    (Except.ok (cache.token.getD ("")), cache)
  else
    match exchange with
    | Except.error e => (Except.error e, cache)
    | Except.ok d =>
      let newExpiresAt : Int :=
        now + (match d.expires_in with
          | some n => if n = 0 then 3600 else n
          | none => 3600) * 1000
      (Except.ok d.access_token, { token := some d.access_token, expiresAt := newExpiresAt })

/-- One metadata entry `{ Name, Value }` of `CallbackMetadata.Item`
(§4.5 of the gateway protocol); `Value` may be absent. -/
structure MetaItem where
  Name : String
  Value : Option JsVal
deriving DecidableEq

/-- The `CallbackMetadata` object; its `Item` array may be absent. -/
structure CallbackMeta where
  Item : Option (List MetaItem)
deriving DecidableEq

/-- The nested `stkCallback` confirmation object. -/
structure StkCb where
  MerchantRequestID : Option String
  CheckoutRequestID : Option String
  ResultCode : Option Int
  ResultDesc : Option String
  CallbackMetadata : Option CallbackMeta
deriving DecidableEq

/-- The `Body` wrapper of a callback request; the handler accepts the
confirmation object under either the `stkCallback` or the `STKCallback`
key (src/index.js line 396). -/
structure CbBodyInner where
  stkCallback : Option StkCb
  STKCallback : Option StkCb
deriving DecidableEq

/-- A parsed callback request body. -/
structure CbBody where
  Body : Option CbBodyInner
deriving DecidableEq

/-- `body.Body?.stkCallback || body.Body?.STKCallback || null`
(src/index.js line 396). -/
def extractCb (b : CbBody) : Option StkCb :=
  match b.Body with
  | none => none
  | some inner =>
    match inner.stkCallback with
    | some cb => some cb
    | none => inner.STKCallback

/-- `cb.CallbackMetadata?.Item || []` (src/index.js line 402). -/
def cbMetaItems (cb : StkCb) : List MetaItem :=
  match cb.CallbackMetadata with
  | none => []
  | some m => m.Item.getD []

/-- `getVal` from src/index.js lines 403-404:
`metaItems.find((i) => i.Name === name)?.Value || null`; a missing item,
a missing `Value` and a falsy `Value` all yield `null` (`none`). -/
def getVal (items : List MetaItem) (name : String) : Option JsVal :=
  match items.find? (fun i => i.Name == name) with
  | none => none
  | some it =>
    match it.Value with
    | none => none
    | some v => if jsTruthy v then some v else none

/-- A stored `Transaction` document, mirroring the mongoose schema fields
that the callback handler sets (src/index.js lines 223-235 / 406-416). -/
structure Transaction where
  MerchantRequestID : Option String
  CheckoutRequestID : Option String
  ResultCode : Option Int
  ResultDesc : Option String
  Amount : JsVal
  MpesaReceiptNumber : JsVal
  TransactionDate : JsVal
  PhoneNumber : JsVal
  rawCallback : CbBody
deriving DecidableEq

/-- The document constructed by the `/callbackurl` handler of the second
variant (src/index.js lines 406-416): confirmation fields are copied
verbatim, metadata values go through `getVal` with the `|| 0` / `|| ""`
defaults, and the whole request body is stored as `rawCallback`.
No sanitization is applied on this path. -/
def mkTransaction (body : CbBody) (cb : StkCb) : Transaction :=
  { MerchantRequestID := cb.MerchantRequestID
    CheckoutRequestID := cb.CheckoutRequestID
    ResultCode := cb.ResultCode
    ResultDesc := cb.ResultDesc
    Amount := jsOr (getVal (cbMetaItems cb) ("Amount")) (JsVal.num (JsNum.finite 0))
    MpesaReceiptNumber := jsOr (getVal (cbMetaItems cb) ("MpesaReceiptNumber")) (JsVal.str (""))
    TransactionDate := jsOr (getVal (cbMetaItems cb) ("TransactionDate")) (JsVal.str (""))
    PhoneNumber := jsOr (getVal (cbMetaItems cb) ("PhoneNumber")) (JsVal.str (""))
    rawCallback := body }

/-- The document constructed by the `/callbackurl` handler of the first
variant (src/index.js lines 149-169): `sanitizeXml` is applied to
`MerchantRequestID`, `CheckoutRequestID` and `ResultDesc` only (with the
default parameter turning an absent field into the empty string); the
four metadata-derived fields are stored raw. -/
def mkTransactionV1 (body : CbBody) (cb : StkCb) : Transaction :=
  { MerchantRequestID := some (sanitizeXml (cb.MerchantRequestID.getD ("")))
    CheckoutRequestID := some (sanitizeXml (cb.CheckoutRequestID.getD ("")))
    ResultCode := cb.ResultCode
    ResultDesc := some (sanitizeXml (cb.ResultDesc.getD ("")))
    Amount := jsOr (getVal (cbMetaItems cb) ("Amount")) (JsVal.num (JsNum.finite 0))
    MpesaReceiptNumber := jsOr (getVal (cbMetaItems cb) ("MpesaReceiptNumber")) (JsVal.str (""))
    TransactionDate := jsOr (getVal (cbMetaItems cb) ("TransactionDate")) (JsVal.str (""))
    PhoneNumber := jsOr (getVal (cbMetaItems cb) ("PhoneNumber")) (JsVal.str (""))
    rawCallback := body }

/-- The HTTP response of the `/callbackurl` handler: a status together
with the fields of the JSON body it sends. -/
structure CbResponse where
  status : Nat
  ResultCode : Option Int
  ResultDesc : Option String
  message : Option String
deriving DecidableEq

/-- The `/callbackurl` handler (src/index.js lines 389-427): extract the
nested confirmation object, answer 400 if it is absent, otherwise build a
new `Transaction`, `save()` it (append to the collection) and answer 200
with the fixed acknowledgment `{ ResultCode: 0, ResultDesc: "Success" }`.
The store is passed and returned explicitly. -/
def callbackHandler (b : CbBody) (store : List Transaction) :
    CbResponse × List Transaction :=
  match extractCb b with
  | none =>
    ({ status := 400, ResultCode := none, ResultDesc := none,
       message := some ("No callback body found") }, store)
  | some cb =>
    ({ status := 200, ResultCode := some 0, ResultDesc := some ("Success"),
       message := none }, store ++ [mkTransaction b cb])

/-- The outbound payload built by the `/stkpush` handler
(src/index.js lines 354-366). -/
structure StkPayload where
  BusinessShortCode : String
  Password : String
  Timestamp : String
  TransactionType : String
  Amount : JsVal
  PartyA : String
  PartyB : String
  PhoneNumber : String
  CallBackURL : String
  AccountReference : String
  TransactionDesc : String
deriving DecidableEq

/-- The steps of the `/stkpush` handler that leave the process:
the `getAccessToken()` invocation and the push-payment `axios.post`. -/
inductive OutCall where
  | getToken
  | stkPush
deriving DecidableEq

/-- Observable outcome of one `/stkpush` request: response status, the
outbound steps reached, the payload sent to the gateway (when the
handler got that far) and the transaction store after the request. -/
structure StkResult where
  status : Nat
  calls : List OutCall
  sentPayload : Option StkPayload
  store : List Transaction
deriving DecidableEq

/-- The `/stkpush` handler (src/index.js lines 328-386).  `ts` is the
`formatTimestamp()` wall-clock string; `tokenRes` and `pushRes` are the
awaited outcomes of `getAccessToken()` and of the push-payment call.
Control flow of the source: reject 400 if `!phone || !amount`; compute
`partyA = normalizePhone(phone)` and
`receiverNormalized = receiver ? normalizePhone(receiver) : partyA`;
reject 400 if `partyA` fails `/^2547\d{8}$/`; get the token; build the
payload; post it; answer 200 with the gateway response (500 if either
outbound call throws).  No store write occurs on any path. -/
def stkpushHandler (env : Env) (ts : String) (phone : Option String)
    (amount : JsVal) (receiver : Option String)
    (tokenRes : Except String String) (pushRes : Except String String)
    (store : List Transaction) : StkResult :=
  if !jsTruthyStr phone || !jsTruthy amount then
    { status := 400, calls := [], sentPayload := none, store := store }
  else
    let partyA := normalizePhone phone
    let receiverNormalized := if jsTruthyStr receiver then normalizePhone receiver else partyA
    if !isCanonical partyA then
      { status := 400, calls := [], sentPayload := none, store := store }
    else
      match tokenRes with
      | Except.error _ =>
        { status := 500, calls := [OutCall.getToken], sentPayload := none, store := store }
      | Except.ok _tok =>
        let payload : StkPayload :=
          { BusinessShortCode := env.SHORTCODE
            Password := makePassword env.SHORTCODE env.PASSKEY ts
            Timestamp := ts
            TransactionType := "CustomerPayBillOnline"
            Amount := amount
            PartyA := partyA
            PartyB := env.SHORTCODE
            PhoneNumber := partyA
            CallBackURL := env.CALLBACK_URL
            AccountReference := "RichTech-" ++ receiverNormalized
            TransactionDesc := "Bundle purchase for " ++ receiverNormalized }
        match pushRes with
        | Except.error _ =>
          { status := 500, calls := [OutCall.getToken, OutCall.stkPush],
            sentPayload := some payload, store := store }
        | Except.ok _ =>
          { status := 200, calls := [OutCall.getToken, OutCall.stkPush],
            sentPayload := some payload, store := store }

/-! Helper lemmas about the JavaScript string model. -/

theorem head_dropWhile_false (p : Char → Bool) (l : List Char) (c : Char)
    (h : (l.dropWhile p).head? = some c) : p c = false := by
  have hm := List.head?_dropWhile_not p l
  rw [h] at hm
  exact hm

theorem dropWhile_eq_self_of_head (p : Char → Bool) (l : List Char)
    (h : ∀ c, l.head? = some c → p c = false) : l.dropWhile p = l := by
  cases l with
  | nil => rfl
  | cons a as =>
    have ha : p a = false := h a rfl
    simp [List.dropWhile_cons, ha]

theorem jsTrim_head? (l : List Char) (c : Char)
    (h : (jsTrim l).head? = some c) : isWs c = false := by
  have h1 : ((l.dropWhile isWs).reverse.dropWhile isWs) <:+ (l.dropWhile isWs).reverse :=
    List.dropWhile_suffix isWs
  rw [← List.reverse_reverse ((l.dropWhile isWs).reverse.dropWhile isWs)] at h1
  have h2 := List.reverse_suffix.mp h1
  obtain ⟨t, ht⟩ := h2
  have hA : (l.dropWhile isWs).head? = some c := by
    rw [← ht, List.head?_append]
    have : (jsTrim l).head? = some c := h
    rw [jsTrim] at this
    rw [this]
    rfl
  exact head_dropWhile_false isWs l c hA

theorem jsTrim_revhead? (l : List Char) (c : Char)
    (h : ((jsTrim l).reverse).head? = some c) : isWs c = false := by
  rw [jsTrim, List.reverse_reverse] at h
  exact head_dropWhile_false isWs (l.dropWhile isWs).reverse c h

theorem jsTrim_eq_self (l : List Char)
    (hh : ∀ c, l.head? = some c → isWs c = false)
    (hr : ∀ c, l.reverse.head? = some c → isWs c = false) :
    jsTrim l = l := by
  rw [jsTrim, dropWhile_eq_self_of_head isWs l hh,
    dropWhile_eq_self_of_head isWs l.reverse hr, List.reverse_reverse]

theorem jsTrim_idem (l : List Char) : jsTrim (jsTrim l) = jsTrim l :=
  jsTrim_eq_self (jsTrim l) (jsTrim_head? l) (jsTrim_revhead? l)

theorem ws_not_digit (c : Char) (h : isWs c = true) : isDigit c = false := by
  simp only [isWs, Bool.or_eq_true, decide_eq_true_eq] at h
  rcases h with ((((h | h) | h) | h) | h) | h <;> subst h <;> decide

theorem digit_not_ws (c : Char) (h : isDigit c = true) : isWs c = false := by
  cases hw : isWs c
  · rfl
  · rw [ws_not_digit c hw] at h
    exact absurd h (by simp)

theorem revhead_cons_cases (a c : Char) (l : List Char)
    (h : ((a :: l).reverse).head? = some c) :
    l.reverse.head? = some c ∨ (l = [] ∧ c = a) := by
  rw [List.reverse_cons, List.head?_append] at h
  cases hl : l.reverse.head? with
  | some d =>
    rw [hl] at h
    exact Or.inl h
  | none =>
    rw [hl] at h
    have hc : c = a := by
      have h2 : some a = some c := h
      exact (Option.some.inj h2).symm
    have hnil : l = [] := by
      cases l with
      | nil => rfl
      | cons x xs =>
        exfalso
        rw [List.reverse_cons, List.head?_append] at hl
        cases hx : (xs.reverse).head? with
        | some y => rw [hx] at hl; simp [Option.or] at hl
        | none => rw [hx] at hl; simp [Option.or] at hl
    exact Or.inr ⟨hnil, hc⟩

theorem revhead_cons_of (a c : Char) (l : List Char)
    (h : l.reverse.head? = some c) : ((a :: l).reverse).head? = some c := by
  rw [List.reverse_cons, List.head?_append, h]
  rfl

theorem all_digit_revhead (l : List Char) (hd : l.all isDigit = true) (c : Char)
    (hc : l.reverse.head? = some c) : isDigit c = true := by
  have hmem : c ∈ l.reverse := List.mem_of_mem_head? (by rw [hc]; rfl)
  have : c ∈ l := List.mem_reverse.mp hmem
  exact List.all_eq_true.mp hd c this

theorem startsWith07 (s : List Char) (h : (['0', '7']).isPrefixOf s = true) :
    ∃ t, s = '0' :: '7' :: t := by
  match s with
  | [] => simp [List.isPrefixOf] at h
  | [c] => simp [List.isPrefixOf] at h
  | c :: d :: t =>
    simp only [List.isPrefixOf, Bool.and_eq_true, beq_iff_eq] at h
    obtain ⟨h1, h2, _⟩ := h
    subst h1; subst h2
    exact ⟨t, rfl⟩

theorem startsWithPlus254 (s : List Char) (h : (['+', '2', '5', '4']).isPrefixOf s = true) :
    ∃ t, s = '+' :: '2' :: '5' :: '4' :: t := by
  match s with
  | [] => simp [List.isPrefixOf] at h
  | [c] => simp [List.isPrefixOf] at h
  | [c, d] => simp [List.isPrefixOf] at h
  | [c, d, e] => simp [List.isPrefixOf] at h
  | c :: d :: e :: f :: t =>
    simp only [List.isPrefixOf, Bool.and_eq_true, beq_iff_eq] at h
    obtain ⟨h1, h2, h3, h4, _⟩ := h
    subst h1; subst h2; subst h3; subst h4
    exact ⟨t, rfl⟩

theorem startsWith254 (s : List Char) (h : (['2', '5', '4']).isPrefixOf s = true) :
    ∃ t, s = '2' :: '5' :: '4' :: t := by
  match s with
  | [] => simp [List.isPrefixOf] at h
  | [c] => simp [List.isPrefixOf] at h
  | [c, d] => simp [List.isPrefixOf] at h
  | c :: d :: e :: t =>
    simp only [List.isPrefixOf, Bool.and_eq_true, beq_iff_eq] at h
    obtain ⟨h1, h2, h3, _⟩ := h
    subst h1; subst h2; subst h3
    exact ⟨t, rfl⟩

theorem normBranches_of_254 (t : List Char) :
    normBranches ('2' :: '5' :: '4' :: t) = '2' :: '5' :: '4' :: t := by
  simp [normBranches, List.isPrefixOf]

theorem normBranches_of_07 (t : List Char) :
    normBranches ('0' :: '7' :: t) = '2' :: '5' :: '4' :: '7' :: t := by
  simp [normBranches, List.isPrefixOf]

theorem normBranches_of_plus254 (t : List Char) :
    normBranches ('+' :: '2' :: '5' :: '4' :: t) = '2' :: '5' :: '4' :: t := by
  simp [normBranches, List.isPrefixOf, jsReplaceFirst]

theorem startsWith2547 (s : List Char) (h : (['2', '5', '4', '7']).isPrefixOf s = true) :
    ∃ t, s = '2' :: '5' :: '4' :: '7' :: t := by
  match s with
  | [] => simp [List.isPrefixOf] at h
  | [c] => simp [List.isPrefixOf] at h
  | [c, d] => simp [List.isPrefixOf] at h
  | [c, d, e] => simp [List.isPrefixOf] at h
  | c :: d :: e :: f :: t =>
    simp only [List.isPrefixOf, Bool.and_eq_true, beq_iff_eq] at h
    obtain ⟨h1, h2, h3, h4, _⟩ := h
    subst h1; subst h2; subst h3; subst h4
    exact ⟨t, rfl⟩

theorem revhead_append_cases (x u : List Char) (c : Char)
    (h : ((x ++ u).reverse).head? = some c) :
    u.reverse.head? = some c ∨ (u = [] ∧ x.reverse.head? = some c) := by
  rw [List.reverse_append, List.head?_append] at h
  cases hu : u.reverse.head? with
  | some d =>
    rw [hu] at h
    exact Or.inl h
  | none =>
    rw [hu] at h
    have hnil : u = [] := by
      cases u with
      | nil => rfl
      | cons y ys =>
        exfalso
        rw [List.reverse_cons, List.head?_append] at hu
        cases hy : (ys.reverse).head? with
        | some z => rw [hy] at hu; simp [Option.or] at hu
        | none => rw [hy] at hu; simp [Option.or] at hu
    exact Or.inr ⟨hnil, h⟩

theorem normBranches_trimmed (s : List Char)
    (hh : ∀ c, s.head? = some c → isWs c = false)
    (hr : ∀ c, s.reverse.head? = some c → isWs c = false) :
    jsTrim (normBranches s) = normBranches s := by
  by_cases h1 : (['0', '7']).isPrefixOf s = true
  · obtain ⟨t, rfl⟩ := startsWith07 s h1
    rw [normBranches_of_07]
    apply jsTrim_eq_self
    · intro c hc
      rw [List.head?_cons] at hc
      injection hc with hc; subst hc; decide
    · intro c hc
      rcases revhead_append_cases ['2', '5', '4', '7'] t c hc with hc | ⟨_, hc⟩
      · exact hr c (revhead_cons_of '0' c ('7' :: t) (revhead_cons_of '7' c t hc))
      · injection hc with hc; subst hc; decide
  · by_cases h2 : (['+', '2', '5', '4']).isPrefixOf s = true
    · obtain ⟨t, rfl⟩ := startsWithPlus254 s h2
      rw [normBranches_of_plus254]
      apply jsTrim_eq_self
      · intro c hc
        rw [List.head?_cons] at hc
        injection hc with hc; subst hc; decide
      · intro c hc
        rcases revhead_append_cases ['2', '5', '4'] t c hc with hc | ⟨_, hc⟩
        · exact hr c (revhead_cons_of '+' c _ (revhead_cons_of '2' c _
            (revhead_cons_of '5' c _ (revhead_cons_of '4' c t hc))))
        · injection hc with hc; subst hc; decide
    · by_cases h3 : (['2', '5', '4']).isPrefixOf s = true
      · have hs : normBranches s = s := by
          obtain ⟨t, rfl⟩ := startsWith254 s h3
          exact normBranches_of_254 t
        rw [hs]
        exact jsTrim_eq_self s hh hr
      · by_cases h4 : (s.length = 9 && s.all isDigit) = true
        · have hs : normBranches s = '2' :: '5' :: '4' :: s := by
            simp [normBranches, h1, h2, h3, h4]
          rw [hs]
          apply jsTrim_eq_self
          · intro c hc
            rw [List.head?_cons] at hc
            injection hc with hc; subst hc; decide
          · intro c hc
            rcases revhead_append_cases ['2', '5', '4'] s c hc with hc | ⟨_, hc⟩
            · exact hr c hc
            · injection hc with hc; subst hc; decide
        · have hs : normBranches s = s := by
            simp [normBranches, h1, h2, h3, h4]
          rw [hs]
          exact jsTrim_eq_self s hh hr

theorem normBranches_idem (s : List Char) :
    normBranches (normBranches s) = normBranches s := by
  by_cases h1 : (['0', '7']).isPrefixOf s = true
  · obtain ⟨t, rfl⟩ := startsWith07 s h1
    rw [normBranches_of_07]
    exact normBranches_of_254 ('7' :: t)
  · by_cases h2 : (['+', '2', '5', '4']).isPrefixOf s = true
    · obtain ⟨t, rfl⟩ := startsWithPlus254 s h2
      rw [normBranches_of_plus254]
      exact normBranches_of_254 t
    · by_cases h3 : (['2', '5', '4']).isPrefixOf s = true
      · obtain ⟨t, rfl⟩ := startsWith254 s h3
        rw [normBranches_of_254]
        exact normBranches_of_254 t
      · by_cases h4 : (s.length = 9 && s.all isDigit) = true
        · have hs : normBranches s = '2' :: '5' :: '4' :: s := by
            simp [normBranches, h1, h2, h3, h4]
          rw [hs]
          exact normBranches_of_254 s
        · have hs : normBranches s = s := by
            simp [normBranches, h1, h2, h3, h4]
          rw [hs]
          exact hs

theorem normalizePhoneL_idem (input : Option (List Char)) :
    normalizePhoneL (some (normalizePhoneL input)) = normalizePhoneL input := by
  match input with
  | none => rfl
  | some l =>
    by_cases hl : l = []
    · subst hl; rfl
    · have he : normalizePhoneL (some l) = normBranches (jsTrim l) := by
        simp [normalizePhoneL, hl]
      rw [he]
      by_cases hy0 : normBranches (jsTrim l) = []
      · simp [normalizePhoneL, hy0]
      · have he2 : normalizePhoneL (some (normBranches (jsTrim l))) =
            normBranches (jsTrim (normBranches (jsTrim l))) := by
          simp [normalizePhoneL, hy0]
        rw [he2, normBranches_trimmed (jsTrim l) (jsTrim_head? l) (jsTrim_revhead? l)]
        exact normBranches_idem (jsTrim l)

theorem normalizePhone_idem (x : Option String) :
    normalizePhone (some (normalizePhone x)) = normalizePhone x := by
  show String.mk (normalizePhoneL (some (normalizePhoneL (x.map String.data)))) =
    String.mk (normalizePhoneL (x.map String.data))
  rw [normalizePhoneL_idem]

theorem canonicalL_fixed (l : List Char) (h : isCanonicalL l = true) :
    normalizePhoneL (some l) = l := by
  rw [isCanonicalL, Bool.and_eq_true, Bool.and_eq_true] at h
  obtain ⟨⟨hpre, _hlen⟩, hdig⟩ := h
  obtain ⟨t, rfl⟩ := startsWith2547 _ hpre
  have hne : ('2' :: '5' :: '4' :: '7' :: t) ≠ [] := by simp
  have he : normalizePhoneL (some ('2' :: '5' :: '4' :: '7' :: t)) =
      normBranches (jsTrim ('2' :: '5' :: '4' :: '7' :: t)) := by
    simp [normalizePhoneL]
  rw [he]
  have hdrop : (('2' :: '5' :: '4' :: '7' :: t).drop 4).all isDigit = true := hdig
  have ht : jsTrim ('2' :: '5' :: '4' :: '7' :: t) = '2' :: '5' :: '4' :: '7' :: t := by
    apply jsTrim_eq_self
    · intro c hc
      rw [List.head?_cons] at hc
      injection hc with hc; subst hc; decide
    · intro c hc
      rcases revhead_append_cases ['2', '5', '4', '7'] t c hc with hc | ⟨_, hc⟩
      · exact digit_not_ws c (all_digit_revhead t hdrop c hc)
      · injection hc with hc; subst hc; decide
  rw [ht]
  exact normBranches_of_254 ('7' :: t)

theorem canonical_fixed (s : String) (h : isCanonical s = true) :
    normalizePhone (some s) = s := by
  cases s with
  | mk l =>
    show String.mk (normalizePhoneL (some l)) = String.mk l
    rw [canonicalL_fixed l h]

theorem truthy_of_canonical (p : Option String) (h : isCanonical (normalizePhone p) = true) :
    jsTruthyStr p = true := by
  match p with
  | none => exact absurd h (by decide)
  | some (String.mk []) => exact absurd h (by decide)
  | some (String.mk (c :: cs)) =>
    have hne : String.mk (c :: cs) ≠ String.mk [] := by
      intro heq
      have hd := congrArg String.data heq
      simp at hd
    simp only [jsTruthyStr, decide_eq_true_eq]
    exact hne

theorem normBranches_unrecognized (s : List Char) (h : recognizedL s = false) :
    normBranches s = s := by
  rw [recognizedL] at h
  simp only [Bool.or_eq_false_iff] at h
  obtain ⟨⟨⟨g1, g2⟩, g3⟩, g4⟩ := h
  simp [normBranches, g1, g2, g3, g4]

theorem jsTrim_fixed_digit_tail (a : Char) (ha : isWs a = false) (u : List Char)
    (hu : u.all isDigit = true) : jsTrim (a :: u) = a :: u := by
  apply jsTrim_eq_self
  · intro c hc
    rw [List.head?_cons] at hc
    injection hc with hc; subst hc
    exact ha
  · intro c hc
    rcases revhead_cons_cases a c u hc with hc | ⟨_, rfl⟩
    · exact digit_not_ws c (all_digit_revhead u hu c hc)
    · exact ha

/-! Concrete fixtures used by the claim theorems. -/

/-- Example environment configuration. -/
def envEx : Env :=
  { CONSUMER_KEY := "ck", CONSUMER_SECRET := "cs", SHORTCODE := "174379",
    PASSKEY := "pk", CALLBACK_URL := "https://example.com/callbackurl" }

/-- The successful-payment callback of spec §8: `CheckoutRequestID "ws_1"`,
`ResultCode 0`, metadata `Amount 50` and `MpesaReceiptNumber "ABC123"`. -/
def cbEx : StkCb :=
  { MerchantRequestID := some ("m-1")
    CheckoutRequestID := some ("ws_1")
    ResultCode := some 0
    ResultDesc := some ("Success")
    CallbackMetadata := some
      { Item := some ([
          { Name := "Amount", Value := some (JsVal.num (JsNum.finite 50)) },
          { Name := "MpesaReceiptNumber", Value := some (JsVal.str ("ABC123")) } ]) } }

/-- Request body wrapping `cbEx`. -/
def cbExBody : CbBody :=
  { Body := some { stkCallback := some cbEx, STKCallback := none } }

/-- A free-text value containing all five reserved XML characters:
the string is the eleven characters of the literal given in the spec,
ending with a double quote and an apostrophe. -/
def evilText : String :=
  String.mk ['<', 's', 'c', 'r', 'i', 'p', 't', '>', '&', '"', Char.ofNat 39]

/-- A successful-payment callback whose free-text fields contain the five
reserved XML characters. -/
def cbEvil : StkCb :=
  { MerchantRequestID := some ("m-2")
    CheckoutRequestID := some ("ws_CO_2")
    ResultCode := some 0
    ResultDesc := some evilText
    CallbackMetadata := some
      { Item := some ([
          { Name := "Amount", Value := some (JsVal.num (JsNum.finite 50)) },
          { Name := "MpesaReceiptNumber", Value := some (JsVal.str evilText) } ]) } }

/-- Request body wrapping `cbEvil`. -/
def cbEvilBody : CbBody :=
  { Body := some { stkCallback := some cbEvil, STKCallback := none } }

/-- A failed-payment callback: `ResultCode 1`, no metadata. -/
def cbFail : StkCb :=
  { MerchantRequestID := some ("m-3")
    CheckoutRequestID := some ("ws_3")
    ResultCode := some 1
    ResultDesc := some ("Request cancelled by user")
    CallbackMetadata := none }

/-- Request body wrapping `cbFail`. -/
def cbFailBody : CbBody :=
  { Body := some { stkCallback := some cbFail, STKCallback := none } }

/-! Claim theorems. -/

/-- C6: phone normalization is pure and idempotent: for every string `s`,
normalizing an already-canonical number (`2547XXXXXXXX`) returns it
unchanged, and `normalizePhone (normalizePhone s) = normalizePhone s`
(purity is inherent to the embedding: `normalizePhone` is a function of
its input alone). -/
theorem c6_normalize_idempotent_on_accepted :
    ∀ s : String,
      (isCanonical s = true → normalizePhone (some s) = s) ∧
      normalizePhone (some (normalizePhone (some s))) = normalizePhone (some s) :=
  fun s => ⟨canonical_fixed s, normalizePhone_idem (some s)⟩

/-- Witness for C6 at the canonical input `254712345678`. -/
theorem c6_normalize_idempotent_on_accepted_witness :
    isCanonical ("254712345678") = true ∧
    normalizePhone (some ("254712345678")) = "254712345678" :=
  ⟨by decide, (c6_normalize_idempotent_on_accepted ("254712345678")).1 (by decide)⟩

/-- C9 counterexample: an unrecognized string surrounded by whitespace is
NOT returned unchanged: `normalizePhone " qq "` is the trimmed `"qq"`. -/
theorem c9_unrecognized_not_unchanged :
    normalizePhone (some (" qq ")) = "qq" ∧ normalizePhone (some (" qq ")) ≠ " qq " := by
  decide

/-- C9 (amended): `normalizePhone` is total over string and nullish
inputs; nullish and empty input give `""`; an unrecognized string is
returned trimmed (not necessarily unchanged); and
`normalizePhone (normalizePhone s) = normalizePhone s` for every string
`s`. -/
theorem c9_normalize_total_trim_idempotent :
    normalizePhone none = "" ∧
    normalizePhone (some ("")) = "" ∧
    (∀ s : String, recognizedL (jsTrim s.data) = false →
      normalizePhone (some s) = jsTrimStr s) ∧
    (∀ s : String, normalizePhone (some (normalizePhone (some s))) = normalizePhone (some s)) := by
  refine ⟨rfl, by decide, ?_, fun s => normalizePhone_idem (some s)⟩
  intro s h
  cases s with
  | mk l =>
    by_cases hl : l = []
    · subst hl; rfl
    · show String.mk (normalizePhoneL (some l)) = String.mk (jsTrim l)
      have he : normalizePhoneL (some l) = normBranches (jsTrim l) := by
        simp [normalizePhoneL, hl]
      rw [he, normBranches_unrecognized (jsTrim l) h]

/-- Witness for C9 (amended) at the unrecognized input `"hello world"`
and the transformed input `" 0712345678 "`. -/
theorem c9_normalize_total_trim_idempotent_witness :
    recognizedL (jsTrim (String.data ("hello world"))) = false ∧
    normalizePhone (some ("hello world")) = jsTrimStr ("hello world") ∧
    normalizePhone (some (normalizePhone (some (" 0712345678 ")))) =
      normalizePhone (some (" 0712345678 ")) :=
  ⟨by decide,
   c9_normalize_total_trim_idempotent.2.2.1 ("hello world") (by decide),
   c9_normalize_total_trim_idempotent.2.2.2 (" 0712345678 ")⟩

/-- C7: the four documented input shapes of one logical subscriber
(`0` ++ sub, `+254` ++ sub, `254` ++ sub, bare nine-digit sub, where sub
is a nine-digit subscriber number starting with `7`) all normalize to the
identical canonical string `254` ++ sub; in particular `"0712345678"`
normalizes to `"254712345678"` and the `/stkpush` payload's `PartyA`
field equals `"254712345678"` for that payer. -/
theorem c7_four_shapes_canonical :
    (∀ sub : List Char, sub.length = 9 → sub.all isDigit = true → sub.head? = some '7' →
      normalizePhoneL (some ('0' :: sub)) = '2' :: '5' :: '4' :: sub ∧
      normalizePhoneL (some ('+' :: '2' :: '5' :: '4' :: sub)) = '2' :: '5' :: '4' :: sub ∧
      normalizePhoneL (some ('2' :: '5' :: '4' :: sub)) = '2' :: '5' :: '4' :: sub ∧
      normalizePhoneL (some sub) = '2' :: '5' :: '4' :: sub) ∧
    normalizePhone (some ("0712345678")) = "254712345678" ∧
    (∀ env ts,
      ((stkpushHandler env ts (some ("0712345678")) (JsVal.num (JsNum.finite 50)) none
        (Except.ok ("t")) (Except.ok ("r")) []).sentPayload).map StkPayload.PartyA =
      some ("254712345678")) := by
  refine ⟨?_, by decide, ?_⟩
  · intro sub h9 hd h7
    obtain ⟨cs, rfl⟩ : ∃ cs, sub = '7' :: cs := by
      cases sub with
      | nil => exact absurd h7 (by simp)
      | cons c cs =>
        rw [List.head?_cons] at h7
        injection h7 with h7
        subst h7
        exact ⟨cs, rfl⟩
    have hdcs : cs.all isDigit = true := by
      simp only [List.all_cons, Bool.and_eq_true] at hd
      exact hd.2
    have hd254 : (('2' : Char) :: '5' :: '4' :: '7' :: cs).all isDigit = true := by
      simp only [List.all_cons, Bool.and_eq_true]
      exact ⟨by decide, by decide, by decide, by decide, hdcs⟩
    have hd547 : (('5' : Char) :: '4' :: '7' :: cs).all isDigit = true := by
      simp only [List.all_cons, Bool.and_eq_true]
      exact ⟨by decide, by decide, by decide, hdcs⟩
    have hdTail : (('7' : Char) :: cs).all isDigit = true := hd
    refine ⟨?_, ?_, ?_, ?_⟩
    · have he : normalizePhoneL (some ('0' :: '7' :: cs)) =
          normBranches (jsTrim ('0' :: '7' :: cs)) := by
        simp [normalizePhoneL]
      rw [he, jsTrim_fixed_digit_tail '0' (by decide) ('7' :: cs) hdTail,
        normBranches_of_07]
    · have he : normalizePhoneL (some ('+' :: '2' :: '5' :: '4' :: '7' :: cs)) =
          normBranches (jsTrim ('+' :: '2' :: '5' :: '4' :: '7' :: cs)) := by
        simp [normalizePhoneL]
      rw [he, jsTrim_fixed_digit_tail '+' (by decide) ('2' :: '5' :: '4' :: '7' :: cs) hd254,
        normBranches_of_plus254]
    · have he : normalizePhoneL (some ('2' :: '5' :: '4' :: '7' :: cs)) =
          normBranches (jsTrim ('2' :: '5' :: '4' :: '7' :: cs)) := by
        simp [normalizePhoneL]
      rw [he, jsTrim_fixed_digit_tail '2' (by decide) ('5' :: '4' :: '7' :: cs) hd547,
        normBranches_of_254]
    · have he : normalizePhoneL (some ('7' :: cs)) =
          normBranches (jsTrim ('7' :: cs)) := by
        simp [normalizePhoneL]
      rw [he, jsTrim_fixed_digit_tail '7' (by decide) cs hdcs]
      have hguards : normBranches ('7' :: cs) = '2' :: '5' :: '4' :: ('7' :: cs) := by
        have h07 : ((['0', '7'] : List Char).isPrefixOf ('7' :: cs)) = false := by
          simp [List.isPrefixOf]
        have hp : ((['+', '2', '5', '4'] : List Char).isPrefixOf ('7' :: cs)) = false := by
          simp [List.isPrefixOf]
        have h254 : ((['2', '5', '4'] : List Char).isPrefixOf ('7' :: cs)) = false := by
          simp [List.isPrefixOf]
        simp [normBranches, h07, hp, h254, h9, hd]
      rw [hguards]
  · intro env ts
    rfl

/-- Witness for C7 at the subscriber number `712345678`. -/
theorem c7_four_shapes_canonical_witness :
    (String.data ("712345678")).length = 9 ∧
    (String.data ("712345678")).all isDigit = true ∧
    (String.data ("712345678")).head? = some '7' ∧
    normalizePhoneL (some ('0' :: String.data ("712345678"))) =
      '2' :: '5' :: '4' :: String.data ("712345678") :=
  ⟨by decide, by decide, by decide,
    (c7_four_shapes_canonical.1 (String.data ("712345678"))
      (by decide) (by decide) (by decide)).1⟩

/-- C1 counterexample: applying the same well-formed callback payload
twice starting from the empty store yields TWO stored records, not
exactly one: the `/callbackurl` handler persists with a plain insert
(`new Transaction(...).save()`), not an upsert keyed on
`checkoutRequestId`. -/
theorem c1_reconcile_twice_two_records :
    ((callbackHandler cbExBody ((callbackHandler cbExBody []).2)).2).length = 2 ∧
    ¬ (((callbackHandler cbExBody ((callbackHandler cbExBody []).2)).2).length = 1) := by
  decide

/-- C1 (amended): reconciliation is not idempotent in storage effect:
every application of the `/callbackurl` handler to a payload whose
nested confirmation object parses appends one freshly constructed record
to the store, so applying the same payload twice starting from any store
appends two records with identical content; there is no merge keyed on
`checkoutRequestId`. -/
theorem c1_reconcile_appends_record :
    ∀ b cb store, extractCb b = some cb →
      (callbackHandler b store).2 = store ++ [mkTransaction b cb] ∧
      (callbackHandler b ((callbackHandler b store).2)).2 =
        store ++ [mkTransaction b cb, mkTransaction b cb] := by
  intro b cb store h
  constructor
  · simp [callbackHandler, h]
  · simp [callbackHandler, h]

/-- Witness for C1 (amended) at the spec §8 example callback. -/
theorem c1_reconcile_appends_record_witness :
    extractCb cbExBody = some cbEx ∧
    (callbackHandler cbExBody []).2 = [] ++ [mkTransaction cbExBody cbEx] :=
  ⟨rfl, (c1_reconcile_appends_record cbExBody cbEx [] rfl).1⟩

/-- C3 counterexample: a callback whose free-text fields contain
`<script>&"'` is stored VERBATIM by the `/callbackurl` handler — the
stored `ResultDesc` and `MpesaReceiptNumber` keep all five reserved XML
characters, which differs from the escaped form `sanitizeXml` would
produce; the first variant's construction (`mkTransactionV1`), which
does call `sanitizeXml`, still stores `MpesaReceiptNumber` raw. -/
theorem c3_stored_field_unescaped :
    ((callbackHandler cbEvilBody []).2).map Transaction.ResultDesc = [some evilText] ∧
    ((callbackHandler cbEvilBody []).2).map Transaction.MpesaReceiptNumber =
      [JsVal.str evilText] ∧
    sanitizeXml evilText ≠ evilText ∧
    (mkTransactionV1 cbEvilBody cbEvil).MpesaReceiptNumber = JsVal.str evilText := by
  decide

/-- C3 (amended): the reconciler applies no escaping before persisting:
the stored record's `ResultDesc` equals the callback's `ResultDesc`
verbatim and a truthy extracted `MpesaReceiptNumber` metadata value is
stored verbatim, reserved XML characters included (`sanitizeXml` exists
in the codebase but is not invoked on this path). -/
theorem c3_fields_stored_verbatim :
    ∀ b cb s v store, extractCb b = some cb → cb.ResultDesc = some s →
      getVal (cbMetaItems cb) ("MpesaReceiptNumber") = some v →
      ∃ tx, (callbackHandler b store).2 = store ++ [tx] ∧
        tx.ResultDesc = some s ∧ tx.MpesaReceiptNumber = v := by
  intro b cb s v store h hd hv
  refine ⟨mkTransaction b cb, by simp [callbackHandler, h], ?_, ?_⟩
  · simp [mkTransaction, hd]
  · simp [mkTransaction, hv, jsOr]

/-- Witness for C3 (amended) at the reserved-character callback. -/
theorem c3_fields_stored_verbatim_witness :
    extractCb cbEvilBody = some cbEvil ∧
    cbEvil.ResultDesc = some evilText ∧
    getVal (cbMetaItems cbEvil) ("MpesaReceiptNumber") = some (JsVal.str evilText) ∧
    ∃ tx, (callbackHandler cbEvilBody []).2 = [] ++ [tx] ∧
      tx.ResultDesc = some evilText ∧ tx.MpesaReceiptNumber = JsVal.str evilText :=
  ⟨rfl, rfl, by decide,
    c3_fields_stored_verbatim cbEvilBody cbEvil evilText (JsVal.str evilText) []
      rfl rfl (by decide)⟩

/-- C5: for every inbound callback body containing the nested
confirmation object, the `/callbackurl` handler responds 200 with the
fixed acknowledgment `{ ResultCode: 0, ResultDesc: "Success" }`
regardless of the callback's own result code, and a 400 rejection occurs
exactly when the nested confirmation object is absent. -/
theorem c5_callback_ack_fixed :
    ∀ b store,
      ((extractCb b).isSome = true →
        (callbackHandler b store).1 =
          { status := 200, ResultCode := some 0, ResultDesc := some ("Success"),
            message := none }) ∧
      ((callbackHandler b store).1.status = 400 ↔ extractCb b = none) := by
  intro b store
  cases h : extractCb b with
  | none =>
    constructor
    · intro hs
      simp at hs
    · simp [callbackHandler, h]
  | some cb =>
    constructor
    · intro _
      simp [callbackHandler, h]
    · simp [callbackHandler, h]

/-- Witness for C5 at a failed-payment callback (`ResultCode = 1`): the
acknowledgment is still the fixed success response. -/
theorem c5_callback_ack_fixed_witness :
    (extractCb cbFailBody).isSome = true ∧
    cbFail.ResultCode = some 1 ∧
    (callbackHandler cbFailBody []).1 =
      { status := 200, ResultCode := some 0, ResultDesc := some ("Success"),
        message := none } :=
  ⟨rfl, rfl, (c5_callback_ack_fixed cbFailBody []).1 rfl⟩

/-- C2 (code bug): the `/stkpush` handler never writes to the transaction
store on any path — in particular, a validated request whose push-payment
call succeeds leaves the store exactly as it was, so no Pending record is
created, although the handler's own comment says it responds with the
gateway response "+ save basic request record". -/
theorem c2_stkpush_never_persists :
    ∀ env ts phone amount receiver tokenRes pushRes store,
      (stkpushHandler env ts phone amount receiver tokenRes pushRes store).store = store := by
  intro env ts phone amount receiver tokenRes pushRes store
  by_cases h1 : (!jsTruthyStr phone || !jsTruthy amount) = true
  · simp [stkpushHandler, h1]
  · by_cases h3 : (!isCanonical (normalizePhone phone)) = true
    · simp [stkpushHandler, h1, h3]
    · cases tokenRes with
      | error e => simp [stkpushHandler, h1, h3]
      | ok t =>
        cases pushRes with
        | error e => simp [stkpushHandler, h1, h3]
        | ok r => simp [stkpushHandler, h1, h3]

/-- C4 counterexample: a NEGATIVE amount is not rejected: with
`amount = -5` and a valid payer the `/stkpush` handler proceeds to both
outbound calls and answers 200 instead of failing with a 400
`ValidationError`. -/
theorem c4_negative_amount_not_rejected :
    (stkpushHandler envEx ("20260101120000") (some ("0712345678"))
      (JsVal.num (JsNum.finite (-5))) none (Except.ok ("t")) (Except.ok ("r")) []).status = 200 ∧
    (stkpushHandler envEx ("20260101120000") (some ("0712345678"))
      (JsVal.num (JsNum.finite (-5))) none (Except.ok ("t")) (Except.ok ("r")) []).calls =
      [OutCall.getToken, OutCall.stkPush] := by
  decide

/-- C4 (amended): the `/stkpush` amount check rejects with 400 before any
outbound call exactly when the amount is FALSY (absent, null, 0, NaN, or
the empty string); any truthy amount — including negative numbers,
infinities and non-empty strings — passes the check and the handler
proceeds to the outbound calls (given a truthy, pattern-valid payer). -/
theorem c4_falsy_amount_rejected :
    ∀ env ts phone amount receiver tokenRes pushRes store,
      (jsTruthy amount = false →
        stkpushHandler env ts phone amount receiver tokenRes pushRes store =
          { status := 400, calls := [], sentPayload := none, store := store }) ∧
      (jsTruthyStr phone = true → jsTruthy amount = true →
        isCanonical (normalizePhone phone) = true →
        (stkpushHandler env ts phone amount receiver tokenRes pushRes store).calls ≠ []) := by
  intro env ts phone amount receiver tokenRes pushRes store
  constructor
  · intro h
    simp [stkpushHandler, h]
  · intro hp ha hc
    simp only [stkpushHandler, hp, ha, hc, Bool.not_true, Bool.or_false, Bool.or_self,
      Bool.false_or, if_false]
    cases tokenRes with
    | error e => simp
    | ok t => cases pushRes with
      | error e => simp
      | ok r => simp

/-- Witness for C4 (amended): an absent amount is rejected with no
outbound call; a negative amount (truthy) reaches the outbound calls. -/
theorem c4_falsy_amount_rejected_witness :
    jsTruthy JsVal.undef = false ∧
    stkpushHandler envEx ("20260101120000") (some ("0712345678")) JsVal.undef none
      (Except.ok ("t")) (Except.ok ("r")) [] =
      { status := 400, calls := [], sentPayload := none, store := [] } ∧
    (stkpushHandler envEx ("20260101120000") (some ("0712345678"))
      (JsVal.num (JsNum.finite (-5))) none (Except.ok ("t")) (Except.ok ("r")) []).calls ≠ [] :=
  ⟨rfl,
    (c4_falsy_amount_rejected envEx ("20260101120000") (some ("0712345678")) JsVal.undef none
      (Except.ok ("t")) (Except.ok ("r")) []).1 rfl,
    (c4_falsy_amount_rejected envEx ("20260101120000") (some ("0712345678"))
      (JsVal.num (JsNum.finite (-5))) none (Except.ok ("t")) (Except.ok ("r")) []).2
      (by decide) (by decide) (by decide)⟩

/-- C8: if the credential-exchange call inside `getAccessToken` fails,
the token cache is left exactly as it was (this holds on the cache-hit
path too, where the exchange is never consulted), and on the refresh
path the error propagates to the caller, so the next call retries
cleanly. -/
theorem c8_token_cache_unchanged_on_failure :
    ∀ cache now err,
      (getAccessToken cache now (Except.error err)).2 = cache ∧
      (¬ (jsTruthyStr cache.token = true ∧ cache.expiresAt > now + 5000) →
        (getAccessToken cache now (Except.error err)).1 = Except.error err) := by
  intro cache now err
  constructor
  · unfold getAccessToken
    split
    · rfl
    · rfl
  · intro h
    cases hb : (jsTruthyStr cache.token && decide (cache.expiresAt > now + 5000)) with
    | false => simp [getAccessToken, hb]
    | true =>
      exfalso
      apply h
      rw [Bool.and_eq_true] at hb
      exact ⟨hb.1, of_decide_eq_true hb.2⟩

/-- Witness for C8 at the initial empty cache. -/
theorem c8_token_cache_unchanged_on_failure_witness :
    (getAccessToken { token := none, expiresAt := 0 } 0 (Except.error ("boom"))).2 =
      { token := none, expiresAt := 0 } ∧
    (getAccessToken { token := none, expiresAt := 0 } 0 (Except.error ("boom"))).1 =
      Except.error ("boom") :=
  ⟨(c8_token_cache_unchanged_on_failure { token := none, expiresAt := 0 } 0 ("boom")).1,
    (c8_token_cache_unchanged_on_failure { token := none, expiresAt := 0 } 0 ("boom")).2
      (by decide)⟩

/-- C10 counterexample: for the EMPTY receiver string the handler does
not embed the normalized receiver: `receiver ? ... : partyA` is falsy on
`""`, so the payload's `AccountReference` carries the payer number
instead of `"RichTech-" ++ normalizePhone ""`. -/
theorem c10_empty_receiver_falls_back :
    ((stkpushHandler envEx ("20260101120000") (some ("0712345678"))
      (JsVal.num (JsNum.finite 50)) (some ("")) (Except.ok ("t")) (Except.ok ("r"))
      []).sentPayload).map StkPayload.AccountReference = some ("RichTech-254712345678") ∧
    normalizePhone (some ("")) = "" ∧
    ("RichTech-254712345678" : String) ≠ "RichTech-" ++ normalizePhone (some ("")) := by
  decide

/-- C10 (amended): for every NON-EMPTY receiver string the handler
applies `normalizePhone` to it, performs no canonical-pattern check on
the result, and embeds the (possibly arbitrary, non-phone) normalized
receiver verbatim in the payload's `AccountReference` and
`TransactionDesc`; only the paying number is checked against
`/^2547\d{8}$/` (an empty receiver falls back to the payer number). -/
theorem c10_receiver_unvalidated_embedded :
    ∀ env ts phone (r : String) amount tok pushRes store, r ≠ "" →
      jsTruthy amount = true → isCanonical (normalizePhone phone) = true →
      ((stkpushHandler env ts phone amount (some r) (Except.ok tok) pushRes
          store).sentPayload).map StkPayload.AccountReference =
        some ("RichTech-" ++ normalizePhone (some r)) ∧
      ((stkpushHandler env ts phone amount (some r) (Except.ok tok) pushRes
          store).sentPayload).map StkPayload.TransactionDesc =
        some ("Bundle purchase for " ++ normalizePhone (some r)) ∧
      (stkpushHandler env ts phone amount (some r) (Except.ok tok) pushRes
          store).status ≠ 400 := by
  intro env ts phone r amount tok pushRes store hr hamt hcan
  have hphone : jsTruthyStr phone = true := truthy_of_canonical phone hcan
  have hrr : jsTruthyStr (some r) = true := by
    simp [jsTruthyStr, hr]
  cases pushRes with
  | error e =>
    refine ⟨?_, ?_, ?_⟩ <;> simp [stkpushHandler, hphone, hamt, hcan, hrr]
  | ok v =>
    refine ⟨?_, ?_, ?_⟩ <;> simp [stkpushHandler, hphone, hamt, hcan, hrr]

/-- Witness for C10 (amended) at a receiver that is not a phone number at
all (`"not-a-phone"`). -/
theorem c10_receiver_unvalidated_embedded_witness :
    ("not-a-phone" : String) ≠ "" ∧
    ((stkpushHandler envEx ("20260101120000") (some ("0712345678"))
        (JsVal.num (JsNum.finite 50)) (some ("not-a-phone")) (Except.ok ("t"))
        (Except.ok ("r")) []).sentPayload).map StkPayload.AccountReference =
      some ("RichTech-" ++ normalizePhone (some ("not-a-phone"))) ∧
    (stkpushHandler envEx ("20260101120000") (some ("0712345678"))
        (JsVal.num (JsNum.finite 50)) (some ("not-a-phone")) (Except.ok ("t"))
        (Except.ok ("r")) []).status ≠ 400 :=
  ⟨by decide,
    (c10_receiver_unvalidated_embedded envEx ("20260101120000") (some ("0712345678"))
      ("not-a-phone") (JsVal.num (JsNum.finite 50)) ("t") (Except.ok ("r")) []
      (by decide) (by decide) (by decide)).1,
    (c10_receiver_unvalidated_embedded envEx ("20260101120000") (some ("0712345678"))
      ("not-a-phone") (JsVal.num (JsNum.finite 50)) ("t") (Except.ok ("r")) []
      (by decide) (by decide) (by decide)).2.2⟩

end RichTech
